import Mathlib

/-!
Verification of the epistemological-framework reasoning pipeline
(`computational_implementation/`): a shallow embedding of the shared
`EpistState` record, the six phase nodes, the two routers and the
step-driven graph execution, together with the schema constraints the
per-phase pydantic models impose on the backend's structured answers and
the retry behaviour of `call_llm` (utils.py).

The reasoning backend (the LLM behind `call_llm`) and the `random.sample`
call in the focused-abduction phase are external collaborators; they are
modelled as an explicit `Oracle` of functions, universally quantified in
every theorem, so each theorem holds for every possible backend behaviour
(or a concrete oracle witnesses a behaviour the backend can exhibit).
Python's `sorted`/`list.sort` are stable sorts; they are embedded as
`List.insertionSort`, which is also stable, hence extensionally equal on
every input.
-/

namespace Epist

/-- One flattened abstraction feature, the element shape produced by
`abstraction_postprocessing` (abstraction.py lines 39-49):
`{category, finding, explanation}`. -/
structure Finding where
  category : String
  finding : String
  explanation : String
deriving DecidableEq, Repr, Inhabited

/-- `EvaluatedExpectedFinding` (induction.py lines 12-21):
`{description, status, comment}`. -/
structure EvaluatedFinding where
  description : String
  status : String
  comment : String
deriving DecidableEq, Repr, Inhabited

/-- A hypothesis dict as it circulates between phases. The Python code
passes plain dicts whose key set depends on the producing phase:
abduction-style entries (abduction.py `DiagnosticHypothesis`) carry
`explanation`/`supporting_features`; induction-style entries
(induction.py `EvaluatedHypothesis`) additionally carry `evaluation`,
`termination_recommendation` and `evaluated_findings`. Optional fields
model optional dict keys (`none` = key absent). -/
structure Hyp where
  diagnosis : String
  explanation : Option String := none
  supporting_features : Option (List String) := none
  evaluation : Option String := none
  termination_recommendation : Option String := none
  evaluated_findings : Option (List EvaluatedFinding) := none
deriving DecidableEq, Repr, Inhabited

/-- A `{"hypotheses": [...]}` wrapper dict, the shape of
`AbductionHypothesesList` (abduction.py lines 18-20) and of the induction
answer (induction.py `InductionResult`). -/
structure HypList where
  hypotheses : List Hyp
deriving DecidableEq, Repr, Inhabited

/-- `Rank` (ranking.py lines 13-18): the rank position plus the four
textual criteria justifications. -/
structure Rank where
  rank : Int
  parsimony : String := ""
  danger : String := ""
  cost : String := ""
  curability : String := ""
deriving DecidableEq, Repr, Inhabited

/-- `RankedDiagnosticHypothesis` (ranking.py lines 25-27):
`{diagnosis, position}`. -/
structure RankedHyp where
  diagnosis : String
  position : Rank
deriving DecidableEq, Repr, Inhabited

/-- `RankedHypothesesList` (ranking.py lines 29-34). -/
structure RankingOut where
  hypotheses : List RankedHyp
deriving DecidableEq, Repr, Inhabited

/-- `ExpectedFinding` (deduction.py lines 11-20):
`{description, kind, priority}` with `kind` and `priority` Literal strings. -/
structure ExpectedFinding where
  description : String
  kind : String
  priority : String
deriving DecidableEq, Repr, Inhabited

/-- `HypothesisDeduction` (deduction.py lines 27-29). -/
structure DedHyp where
  diagnosis : String
  predicted_consequences : List ExpectedFinding
deriving DecidableEq, Repr, Inhabited

/-- `DeductionPlan` (deduction.py lines 31-37). -/
structure DeductionOut where
  hypotheses : List DedHyp
deriving DecidableEq, Repr, Inhabited

/-- `EpistState` (framework_implementation.py lines 9-29): the shared
state record. The TypedDict is `total=False`; the four fields main.py
initialises for every run (`case_text`, `model`, `top_k`, `iter`, main.py
lines 25-31) are required here, the remaining keys are `Option`
(`none` = key absent, exactly what `s.get(...)` observes). -/
structure EpistState where
  case_text : String
  model : String
  top_k : Nat
  iter : Nat := 0
  abstraction : Option (List Finding) := none
  abduction_unfocused : Option HypList := none
  abduction_focused : Option HypList := none
  ranking : Option RankingOut := none
  deduction : Option DeductionOut := none
  induction : Option HypList := none
  induction_plausible : Option HypList := none
  reranked : Option Bool := none
  clust : Option String := none
  suffix : Option String := none
  stop : Option Bool := none
deriving DecidableEq, Repr, Inhabited

/-- A node's partial-state patch: the dict a node function returns,
merged into the state key-by-key by the engine. `none` = key absent from
the patch; for `abstraction` the written value may itself be null, hence
the nested `Option`. Only keys some node actually returns appear. -/
structure Patch where
  abstraction : Option (Option (List Finding)) := none
  abduction_unfocused : Option HypList := none
  abduction_focused : Option HypList := none
  ranking : Option RankingOut := none
  deduction : Option DeductionOut := none
  induction : Option HypList := none
  induction_plausible : Option HypList := none
  reranked : Option Bool := none
  iter : Option Nat := none
  top_k : Option Nat := none
  case_text : Option String := none
  model : Option String := none
deriving DecidableEq, Repr, Inhabited

/-- Key-level shallow merge of a patch into the state (the engine's
update of the shared dict after each node, spec section 3 lifecycle):
a key present in the patch overwrites, every other key is kept. -/
def merge (s : EpistState) (p : Patch) : EpistState :=
  { case_text := p.case_text.getD s.case_text
    model := p.model.getD s.model
    top_k := p.top_k.getD s.top_k
    iter := p.iter.getD s.iter
    abstraction := p.abstraction.getD s.abstraction
    abduction_unfocused := p.abduction_unfocused.or s.abduction_unfocused
    abduction_focused := p.abduction_focused.or s.abduction_focused
    ranking := p.ranking.or s.ranking
    deduction := p.deduction.or s.deduction
    induction := p.induction.or s.induction
    induction_plausible :=
      Option.or ( Patch.induction_plausible p) ( EpistState.induction_plausible s)
    reranked := p.reranked.or s.reranked
    clust := s.clust
    suffix := s.suffix
    stop := s.stop }

/-- The Phase Executor backend: one function per `call_llm` call site,
each a function of the data that shapes its prompt and response schema.
The prompt wording (case narrative, iteration number, instructions) is
out of scope (spec section 1) and the oracle is universally quantified in
all theorems, so fixing it as an argument loses no generality. `sample`
models `random.sample` (abduction.py line 200); its contract (a size-k
selection without replacement) is a hypothesis where needed. -/
structure Oracle where
  abstr : Option (List Finding)
  abdUnfocused : List Finding → HypList
  abdFocused : List Finding → HypList → HypList
  rank : List Hyp → List RankedHyp
  ded : List RankedHyp → List DedHyp
  ind : List DedHyp → List Hyp
  sample : List Hyp → Nat → List Hyp

/-- Ordering of ranked hypotheses by their rank position, the sort key
`h["position"]["rank"]` of ranking.py line 169 and
framework_implementation.py lines 85 and 96. -/
def rankLe (a b : RankedHyp) : Prop :=
  a.position.rank ≤ b.position.rank

instance : DecidableRel rankLe :=
  fun a b => inferInstanceAs (Decidable (a.position.rank ≤ b.position.rank))

instance : IsTotal RankedHyp rankLe :=
  ⟨fun a b => Int.le_total a.position.rank b.position.rank⟩

instance : IsTrans RankedHyp rankLe :=
  ⟨fun _ _ _ h1 h2 => le_trans h1 h2⟩

/-- ranking.py line 161: the diagnosis names of the input hypotheses,
which define the per-call `DiagnosisEnum` of the response schema. -/
def focused_diagnoses (abduction_output : HypList) : List String :=
  abduction_output.hypotheses.map Hyp.diagnosis

/-- Schema generated by `ranked_diagnoses(diagnoses)` (ranking.py lines
20-35): the answer's `hypotheses` list must have exactly 10 elements
(`min_length=10, max_length=10`) and each element's `diagnosis` must be a
member of the enum built from `diagnoses`. `rank` is an unconstrained
int. -/
def rankingSchemaValid (diagnoses : List String) (answer : List RankedHyp) : Prop :=
  answer.length = 10 ∧ ∀ h ∈ answer, h.diagnosis ∈ diagnoses

instance (ds : List String) (a : List RankedHyp) : Decidable (rankingSchemaValid ds a) :=
  inferInstanceAs (Decidable (_ ∧ _))

/-- Schema generated by `deduct_diagnoses(diagnoses)` (deduction.py lines
22-38): exactly 10 elements, each `diagnosis` a member of the enum built
from `diagnoses`. -/
def dedSchemaValid (diagnoses : List String) (answer : List DedHyp) : Prop :=
  answer.length = 10 ∧ ∀ h ∈ answer, h.diagnosis ∈ diagnoses

instance (ds : List String) (a : List DedHyp) : Decidable (dedSchemaValid ds a) :=
  inferInstanceAs (Decidable (_ ∧ _))

/-- Schema generated by `induct_diagnoses(diagnoses)` (induction.py lines
24-56): exactly 10 elements; each element's `diagnosis` is a member of
the enum built from `diagnoses`, `evaluation` is one of the two Literal
values, `termination_recommendation` one of the three Literal values, and
`explanation`/`evaluated_findings` are present. -/
def indSchemaValid (diagnoses : List String) (answer : List Hyp) : Prop :=
  answer.length = 10 ∧ ∀ h ∈ answer,
    h.diagnosis ∈ diagnoses ∧
    (h.evaluation = some "plausible" ∨ h.evaluation = some "refuted") ∧
    (h.termination_recommendation = some "sufficient_explanation_reached" ∨
     h.termination_recommendation = some "continue_testing" ∨
     h.termination_recommendation = some "reopen_abduction") ∧
    h.explanation.isSome ∧ h.evaluated_findings.isSome

instance (ds : List String) (a : List Hyp) : Decidable (indSchemaValid ds a) :=
  inferInstanceAs (Decidable (_ ∧ _))

/-- `query_abduction_unfocused` (abduction.py lines 23-105): builds a
prompt from the abstraction features and returns the `call_llm` answer
unchanged. `max_unfocused` and the case narrative only shape the prompt
text, which is out of scope. -/
def query_abduction_unfocused (o : Oracle) (abstraction_output : List Finding) : HypList :=
  o.abdUnfocused abstraction_output

/-- `query_abduction_focused` (abduction.py lines 108-202): obtains the
`call_llm` answer and, when it holds more than `max_focused` hypotheses,
replaces it by `random.sample(answer["hypotheses"], max_focused)`
(lines 199-200); otherwise returns it unchanged. -/
def query_abduction_focused (o : Oracle) (abstraction_output : List Finding)
    (unfocused_output : HypList) (max_focused : Nat) : HypList :=
  let answer := o.abdFocused abstraction_output unfocused_output
  if answer.hypotheses.length > max_focused then
    { hypotheses := o.sample answer.hypotheses max_focused }
  else
    answer

/-- `query_rank_hypotheses` (ranking.py lines 59-171): extracts the input
hypotheses, asks the backend for a ranking constrained by the schema
`ranked_diagnoses(focused_diagnoses)`, and returns the answer sorted
ascending by `position.rank` (line 169). -/
def query_rank_hypotheses (o : Oracle) (abduction_output : HypList) : RankingOut :=
  let hypotheses := abduction_output.hypotheses
  let answer := o.rank hypotheses
  { hypotheses := List.insertionSort rankLe answer }

/-- `query_deduction` (deduction.py lines 41-138): sorts the ranked
hypotheses ascending by rank (lines 52-55; the `10**9` fallback for a
missing rank key cannot fire because schema-shaped entries always carry
`position.rank`) and asks the backend for a deduction plan constrained by
`deduct_diagnoses` over their diagnosis names (line 136). -/
def query_deduction (o : Oracle) (ranking_output : RankingOut) : DeductionOut :=
  let ranked_hypotheses := List.insertionSort rankLe ranking_output.hypotheses
  { hypotheses := o.ded ranked_hypotheses }

/-- `query_induction` (induction.py lines 60-166): asks the backend for
an evaluation of the deduction hypotheses (schema `induct_diagnoses` over
their diagnosis names, line 159), then filters the answer to the entries
whose `evaluation` equals `"plausible"` (lines 161-164; in Python a
missing `evaluation` key would raise there, the schema guarantees its
presence). Returns `(answer, filtered_answer)`. -/
def query_induction (o : Oracle) (deduction_output : DeductionOut) : HypList × HypList :=
  let answer := o.ind deduction_output.hypotheses
  let filtered := answer.filter (fun h => h.evaluation = some "plausible")
  (⟨answer⟩, ⟨filtered⟩)

/-- `n_abstraction` (framework_implementation.py lines 33-38): runs the
abstraction query and returns `{"abstraction": out}`. The query result
may be null (absent), the designed early-exit signal. -/
def n_abstraction (o : Oracle) (_s : EpistState) : Patch :=
  { abstraction := some o.abstr }

/-- `n_abduction_unfocused` (framework_implementation.py lines 49-57):
runs the unfocused-abduction query and returns
`{"abduction_unfocused": out, "top_k": top_k}` where `top_k` was read
from the state (line 50). The Python reads `s["abstraction"]`, present
on every path that reaches this node; `getD []` stands for that access. -/
def n_abduction_unfocused (o : Oracle) (s : EpistState) : Patch :=
  let top_k := s.top_k
  { abduction_unfocused := some (query_abduction_unfocused o (s.abstraction.getD []))
    top_k := some top_k }

/-- `n_abduction_focused` (framework_implementation.py lines 59-67):
runs the focused-abduction query with `max_focused = s.get("top_k")` and
returns `{"abduction_focused": out}`. -/
def n_abduction_focused (o : Oracle) (s : EpistState) : Patch :=
  { abduction_focused := some (query_abduction_focused o (s.abstraction.getD [])
      (s.abduction_unfocused.getD ⟨[]⟩) s.top_k) }

/-- `n_ranking` (framework_implementation.py lines 69-97). When
`induction` is present and `reranked` (default false) is not set, it
re-ranks `{"hypotheses": s["induction"]["hypotheses"]}` — the full
induction answer, the hypothesis dicts passed unchanged — sorts by rank
(line 85) and returns `{"ranking": out, "reranked": True}`. Otherwise it
ranks `s.get("abduction_focused")`, sorts by rank (line 96) and returns
`{"ranking": out, "reranked": False}`. There is no guard or raise for
being entered with `reranked` already true: that case takes the second
branch. -/
def n_ranking (o : Oracle) (s : EpistState) : Patch :=
  if s.induction.isSome && !(s.reranked.getD false) then
    let abduction_like : HypList := { hypotheses := (s.induction.getD ⟨[]⟩).hypotheses }
    let out := query_rank_hypotheses o abduction_like
    let out2 : RankingOut := { hypotheses := List.insertionSort rankLe out.hypotheses }
    { ranking := some out2, reranked := some true }
  else
    let out := query_rank_hypotheses o (s.abduction_focused.getD ⟨[]⟩)
    let out2 : RankingOut := { hypotheses := List.insertionSort rankLe out.hypotheses }
    { ranking := some out2, reranked := some false }

/-- `n_deduction` (framework_implementation.py lines 99-105): runs the
deduction query on `s["ranking"]` and returns `{"deduction": out}`. -/
def n_deduction (o : Oracle) (s : EpistState) : Patch :=
  { deduction := some (query_deduction o (s.ranking.getD ⟨[]⟩)) }

/-- `n_induction` (framework_implementation.py lines 107-120): runs the
induction query on `s["deduction"]` and returns the full answer, the
plausible-filtered answer and the incremented iteration counter. -/
def n_induction (o : Oracle) (s : EpistState) : Patch :=
  let result := query_induction o (s.deduction.getD ⟨[]⟩)
  { induction := some result.1, induction_plausible := some result.2
    iter := some (s.iter + 1) }

/-- `route_after_abstraction` (framework_implementation.py lines 40-47):
`"continue"` when `s.get("abstraction")` is not null, else `"end"`. An
empty feature list still continues; only a null/absent value ends. -/
def route_after_abstraction (s : EpistState) : String :=
  if s.abstraction.isSome then "continue" else "end"

/-- `route_after_ranking` (framework_implementation.py lines 122-129):
`"end"` when `s.get("reranked", False)` holds, else `"continue"`. -/
def route_after_ranking (s : EpistState) : String :=
  if s.reranked.getD false then "end" else "continue"

/-- The six graph nodes registered in `graph_definition`
(framework_implementation.py lines 135-140) plus the implicit END marker
(`none` in `nextNode`). -/
inductive Node where
  | abstraction
  | abduction_unfocused
  | abduction_focused
  | ranking
  | deduction
  | induction
deriving DecidableEq, Repr, Inhabited

/-- Dispatch from a node name to its node function, as registered by
`g.add_node` (framework_implementation.py lines 135-140). -/
def execNode (o : Oracle) : Node → EpistState → Patch
  | .abstraction, s => n_abstraction o s
  | .abduction_unfocused, s => n_abduction_unfocused o s
  | .abduction_focused, s => n_abduction_focused o s
  | .ranking, s => n_ranking o s
  | .deduction, s => n_deduction o s
  | .induction, s => n_induction o s

/-- Modelled from the spec: the Graph Engine's next-pointer resolution.
The engine itself is the external `langgraph` library, whose step loop is
not among this repository's sources; spec sections 4.1 and 4.4 define it:
a node with a registered Router is resolved by calling the Router on the
post-merge state and following the labelled conditional edge, a node
without one follows its plain edge. The edge wiring here is exactly
`graph_definition` (framework_implementation.py lines 142-161): entry
`abstraction`; conditional edges after `abstraction`
(`continue ↦ abduction_unfocused`, `end ↦ END`; the redundant plain edge
of line 144 is subsumed by the Router per the spec's resolution rule) and
after `ranking` (`continue ↦ deduction`, `end ↦ END`); plain edges
between the remaining nodes. `none` is END. -/
def nextNode (n : Node) (s : EpistState) : Option Node :=
  match n with
  | .abstraction =>
      if route_after_abstraction s = "continue" then some .abduction_unfocused else none
  | .abduction_unfocused => some .abduction_focused
  | .abduction_focused => some .ranking
  | .ranking =>
      if route_after_ranking s = "continue" then some .deduction else none
  | .deduction => some .induction
  | .induction => some .ranking

/-- Modelled from the spec: the Graph Engine's step loop (spec section
4.1), fuel-bounded by the step budget. Each step executes the current
node on the current state, merges the returned patch, records
`(node, patch, post-merge state)` — the data the Trace Sink receives —
and resolves the next pointer. Returns the trace and whether END was
reached within the budget (`false` = budget exhausted, the
StepBudgetExceeded outcome). -/
def runSteps (o : Oracle) : Nat → Node → EpistState → List (Node × Patch × EpistState) × Bool
  | 0, _, _ => ([], false)
  | fuel+1, n, s =>
    let p := execNode o n s
    let s' := merge s p
    match nextNode n s' with
    | none => ([(n, p, s')], true)
    | some n' =>
      let rest := runSteps o fuel n' s'
      ((n, p, s') :: rest.1, rest.2)

/-- The initial state dict of a run (main.py lines 25-31), with the
step budget 60 applied where the graph is streamed
(`recursion_limit: 60`, logging_file_generation.py line 308). The
`suffix` input is `Config.SUFFIX` (utils.py line 16). -/
def initState (case_text model : String) (top_k : Nat) : EpistState :=
  { case_text := case_text, model := model, top_k := top_k, iter := 0
    suffix := some " (plausible)" }

/-- A full engine run from the entry node with the step budget of 60. -/
def runEngine (o : Oracle) (s : EpistState) : List (Node × Patch × EpistState) × Bool :=
  runSteps o 60 Node.abstraction s


/-- The post-merge state recorded at step index `i` (0-based) of a run,
`default` past the end of the trace. -/
def stateAt (o : Oracle) (s0 : EpistState) (i : Nat) : EpistState :=
  ((runEngine o s0).1.map (fun e => e.2.2)).getD i default

/-- Modelling of `call_llm` (utils.py lines 34-67), interface side. One
backend attempt as observed by the retry loop: `ok v` means `ollama.chat`
returned and `json.loads` parsed the reply content into the value `v`
(note: parsed, not validated — the `response_format` schema is only
forwarded to the backend as the `format` argument); `badJson` means
`json.loads` raised `JSONDecodeError`; `exn` is any other exception. -/
inductive LlmAttempt (α : Type) where
  | ok (v : α)
  | badJson
  | exn
deriving DecidableEq, Repr

/-- The possible outcomes of `call_llm`: a successfully parsed value
returned as-is, the generic `RuntimeError("Failed after ...")` raised
after exhausting the retries (utils.py lines 65-67; no dedicated error
class exists), or an exception re-raised unchanged (line 63). -/
inductive CallResult (α : Type) where
  | success (v : α)
  | runtimeFailure
  | propagated
deriving DecidableEq, Repr

/-- The retry loop of `call_llm` (utils.py lines 48-63): attempts are
numbered from 1; a parsed reply is returned immediately and without any
schema validation; a `JSONDecodeError` moves to the next attempt; any
other exception is re-raised at once. -/
def call_llm_loop {α : Type} (backend : Nat → LlmAttempt α) : Nat → Nat → CallResult α
  | 0, _ => CallResult.runtimeFailure
  | n+1, attempt =>
    match backend attempt with
    | .ok v => .success v
    | .badJson => call_llm_loop backend n (attempt + 1)
    | .exn => .propagated

/-- `call_llm` (utils.py lines 34-67) with its default retry budget of
10; after the loop exhausts the budget, the untyped `RuntimeError` is
raised. -/
def call_llm {α : Type} (backend : Nat → LlmAttempt α) (max_retries : Nat := 10) :
    CallResult α :=
  call_llm_loop backend max_retries 1

/-- Concrete abduction-style hypothesis used by the concrete runs below. -/
def cxHypFlu : Hyp :=
  { diagnosis := "Influenza A", explanation := some "fits"
    supporting_features := some ["fever"] }

/-- Concrete abduction-style hypothesis used by the concrete runs below. -/
def cxHypDengue : Hyp :=
  { diagnosis := "Dengue fever", explanation := some "possible"
    supporting_features := some ["fever"] }

/-- Concrete induction-style hypothesis evaluated as plausible. -/
def cxIndFlu : Hyp :=
  { diagnosis := "Influenza A", evaluation := some "plausible", explanation := some "checked"
    termination_recommendation := some "continue_testing", evaluated_findings := some [] }

/-- Concrete induction-style hypothesis evaluated as refuted. -/
def cxIndDengue : Hyp :=
  { diagnosis := "Dengue fever", evaluation := some "refuted", explanation := some "checked"
    termination_recommendation := some "reopen_abduction", evaluated_findings := some [] }

/-- A concrete, fully computable backend: the abstraction yields one
feature, focused abduction yields two hypotheses, the ranker echoes its
input with ranks 1, 2, ..., deduction echoes the diagnoses, induction
marks "Dengue fever" refuted and everything else plausible, and the
sampler takes a prefix (a legitimate size-k selection without
replacement). -/
def cxOracleRun : Oracle where
  abstr := some [{ category := "History of Present Illness", finding := "fever",
                   explanation := "fever is reported" }]
  abdUnfocused := fun _ => ⟨[{ diagnosis := "viral infection" }]⟩
  abdFocused := fun _ _ => ⟨[cxHypFlu, cxHypDengue]⟩
  rank := fun hyps => (hyps.zip (List.range hyps.length)).map
    (fun p => { diagnosis := p.1.diagnosis, position := { rank := (p.2 : Int) + 1 } })
  ded := fun l => l.map (fun rh => { diagnosis := rh.diagnosis, predicted_consequences := [] })
  ind := fun l => l.map (fun dh =>
    { diagnosis := dh.diagnosis
      evaluation := if dh.diagnosis = "Dengue fever" then some "refuted" else some "plausible"
      explanation := some "checked"
      termination_recommendation := some "continue_testing"
      evaluated_findings := some [] })
  sample := fun l n => l.take n

/-- The same backend with an absent (null) abstraction result. -/
def cxOracleNoAbs : Oracle := { cxOracleRun with abstr := none }

/-- A concrete state as it stands when the Ranking node is entered for
the second pass: `induction` present (one plausible, one refuted
hypothesis), `induction_plausible` the filtered subset, `reranked` still
false. -/
def cxStateSecondPass : EpistState :=
  { case_text := "fever case", model := "gpt-oss:20b", top_k := 10, iter := 1
    abstraction := some [{ category := "History of Present Illness", finding := "fever",
                           explanation := "fever is reported" }]
    abduction_focused := some ⟨[cxHypFlu, cxHypDengue]⟩
    ranking := some ⟨[{ diagnosis := "Influenza A", position := { rank := 1 } },
                      { diagnosis := "Dengue fever", position := { rank := 2 } }]⟩
    deduction := some ⟨[{ diagnosis := "Influenza A", predicted_consequences := [] },
                        { diagnosis := "Dengue fever", predicted_consequences := [] }]⟩
    induction := some ⟨[cxIndFlu, cxIndDengue]⟩
    induction_plausible := some ⟨[cxIndFlu]⟩
    reranked := some false }

/-- The same state with `reranked` already true — the situation the spec
declares a topology violation that must fail fast. -/
def cxStateReranked : EpistState := { cxStateSecondPass with reranked := some true }

/-- Ten distinct diagnosis names. -/
def cxTenNames : List String := (List.range 10).map (fun i => "diag" ++ toString i)

/-- A focused-abduction hypothesis set of the ten distinct names. -/
def cxAbTen : HypList := ⟨cxTenNames.map (fun d => { diagnosis := d })⟩

/-- A schema-valid ranker answer in which every entry has rank 1: ten
elements, every diagnosis drawn from the input enum, ranks unconstrained
by the schema. -/
def cxFlatAnswer : List RankedHyp :=
  cxTenNames.map (fun d => { diagnosis := d, position := { rank := 1 } })

/-- A backend whose ranker always returns `cxFlatAnswer`. -/
def cxOracleFlat : Oracle :=
  { cxOracleRun with abdFocused := fun _ _ => cxAbTen, rank := fun _ => cxFlatAnswer }

/-- A state about to execute the first Ranking pass over the ten
hypotheses. -/
def cxStateTen : EpistState :=
  { case_text := "case", model := "m", top_k := 10, abduction_focused := some cxAbTen }

/-- Fourteen distinct hypotheses, more than `top_k = 10`. -/
def cxFourteen : List Hyp := (List.range 14).map (fun i => { diagnosis := "d" ++ toString i })

/-- A backend whose focused-abduction answer has 14 hypotheses. -/
def cxOracleFourteen : Oracle := { cxOracleRun with abdFocused := fun _ _ => ⟨cxFourteen⟩ }

/-- A 10-element ranking answer repeating a single diagnosis: schema-valid
for the one-element input enum `["influenza"]`. -/
def cxRepeatAnswer : List RankedHyp :=
  List.replicate 10 { diagnosis := "influenza", position := { rank := 1 } }

/-- A schema-valid ranking answer over `cxTenNames` with distinct
diagnoses and ranks 1..10. -/
def cxTenRanked : List RankedHyp :=
  (List.range 10).map (fun i => { diagnosis := "diag" ++ toString i
                                  position := { rank := (i : Int) + 1 } })

/-- A schema-valid deduction answer over `cxTenNames`. -/
def cxTenDed : List DedHyp :=
  (List.range 10).map (fun i => { diagnosis := "diag" ++ toString i
                                  predicted_consequences := [] })

/-- A schema-valid induction answer over `cxTenNames`. -/
def cxTenInd : List Hyp :=
  (List.range 10).map (fun i => { diagnosis := "diag" ++ toString i
                                  evaluation := some "plausible", explanation := some ""
                                  termination_recommendation := some "continue_testing"
                                  evaluated_findings := some [] })

/-- Every state recorded in a run trace keeps the `case_text`, `model`
and `top_k` values of the state the run segment started from: each node
patch either omits these keys or (for `top_k` in the unfocused-abduction
node) rewrites the value just read from the state. -/
theorem runSteps_inputs_const (o : Oracle) :
    ∀ (fuel : Nat) (n : Node) (s : EpistState), ∀ e ∈ (runSteps o fuel n s).1,
      e.2.2.case_text = s.case_text ∧ e.2.2.model = s.model ∧ e.2.2.top_k = s.top_k := by
  intro fuel
  induction fuel with
  | zero => intro n s e he; simp [runSteps] at he
  | succ f ih =>
    intro n s e he
    have hpres : (merge s (execNode o n s)).case_text = s.case_text ∧
        (merge s (execNode o n s)).model = s.model ∧
        (merge s (execNode o n s)).top_k = s.top_k := by
      cases n <;> simp only [execNode] <;>
        first
          | exact ⟨rfl, rfl, rfl⟩
          | (unfold n_ranking; split <;> exact ⟨rfl, rfl, rfl⟩)
    simp only [runSteps] at he
    cases hnx : nextNode n (merge s (execNode o n s)) with
    | none =>
      rw [hnx] at he
      simp at he
      subst he
      exact hpres
    | some n' =>
      rw [hnx] at he
      simp at he
      rcases he with he | he
      · subst he
        exact hpres
      · have h2 := ih n' (merge s (execNode o n s)) e he
        exact ⟨h2.1.trans hpres.1, h2.2.1.trans hpres.2.1, h2.2.2.trans hpres.2.2⟩

/-- When the backend never returns parseable JSON, the retry loop runs
out of budget and ends in the untyped `RuntimeError`, for any remaining
budget and any attempt number. -/
theorem call_llm_loop_allBad {α : Type} (backend : Nat → LlmAttempt α)
    (hb : ∀ n, backend n = LlmAttempt.badJson) :
    ∀ (fuel a : Nat), call_llm_loop backend fuel a = CallResult.runtimeFailure := by
  intro fuel
  induction fuel with
  | zero => intro a; rfl
  | succ f ih =>
    intro a
    simp only [call_llm_loop, hb a]
    exact ih (a + 1)


/-- C1: for every run in which the Abstraction phase yields a present
(possibly empty) result, the engine executes exactly the 7 steps
Abstraction, AbductionUnfocused, AbductionFocused, Ranking, Deduction,
Induction, Ranking and then reaches the terminal marker; the
Ranking-Deduction-Induction cycle executes at most once (Ranking appears
exactly twice in the trace), with `reranked` equal to false after step 4
and true after step 7. Quantified over every backend behaviour. -/
theorem run_seven_steps_when_abstraction_present (o : Oracle) (c m : String) (k : Nat)
    (fs : List Finding) (h : o.abstr = some fs) :
    (runEngine o (initState c m k)).2 = true ∧
    (runEngine o (initState c m k)).1.map Prod.fst =
      [Node.abstraction, Node.abduction_unfocused, Node.abduction_focused,
       Node.ranking, Node.deduction, Node.induction, Node.ranking] ∧
    ((runEngine o (initState c m k)).1.map (fun e => e.2.2.reranked))[3]? =
      some (some false) ∧
    ((runEngine o (initState c m k)).1.map (fun e => e.2.2.reranked))[6]? =
      some (some true) := by
  obtain ⟨ab, au, af, rk, dd, ii, sp⟩ := o
  simp only at h
  subst h
  exact ⟨rfl, rfl, rfl, rfl⟩

/-- Witness for C1: the seven-step property evaluated on the concrete
backend `cxOracleRun`, whose abstraction result is present. -/
theorem run_seven_steps_witness :
    (runEngine cxOracleRun (initState "fever case" "gpt-oss:20b" 10)).2 = true ∧
    (runEngine cxOracleRun (initState "fever case" "gpt-oss:20b" 10)).1.map Prod.fst =
      [Node.abstraction, Node.abduction_unfocused, Node.abduction_focused,
       Node.ranking, Node.deduction, Node.induction, Node.ranking] ∧
    ((runEngine cxOracleRun (initState "fever case" "gpt-oss:20b" 10)).1.map
        (fun e => e.2.2.reranked))[3]? = some (some false) ∧
    ((runEngine cxOracleRun (initState "fever case" "gpt-oss:20b" 10)).1.map
        (fun e => e.2.2.reranked))[6]? = some (some true) :=
  run_seven_steps_when_abstraction_present cxOracleRun "fever case" "gpt-oss:20b" 10 _ rfl

/-- C2: for every run in which the Abstraction phase yields an absent
(null) result, the engine terminates after exactly 1 step (only the
Abstraction node executes), and the final state has no `ranking`,
`deduction` or `induction` fields set. -/
theorem run_one_step_when_abstraction_absent (o : Oracle) (c m : String) (k : Nat)
    (h : o.abstr = none) :
    (runEngine o (initState c m k)).2 = true ∧
    (runEngine o (initState c m k)).1.map Prod.fst = [Node.abstraction] ∧
    ∀ e ∈ (runEngine o (initState c m k)).1,
      e.2.2.ranking = none ∧ e.2.2.deduction = none ∧ e.2.2.induction = none := by
  obtain ⟨ab, au, af, rk, dd, ii, sp⟩ := o
  simp only at h
  subst h
  refine ⟨rfl, rfl, ?_⟩
  have ht : (runEngine ⟨none, au, af, rk, dd, ii, sp⟩ (initState c m k)).1 =
      [(Node.abstraction, { abstraction := some none },
        { case_text := c, model := m, top_k := k, iter := 0,
          suffix := some " (plausible)" })] := rfl
  rw [ht]
  intro e he
  rw [List.mem_singleton] at he
  subst he
  exact ⟨rfl, rfl, rfl⟩

/-- Witness for C2: the one-step early exit evaluated on the concrete
backend `cxOracleNoAbs`, whose abstraction result is null. -/
theorem run_one_step_witness :
    (runEngine cxOracleNoAbs (initState "fever case" "gpt-oss:20b" 10)).2 = true ∧
    (runEngine cxOracleNoAbs (initState "fever case" "gpt-oss:20b" 10)).1.map Prod.fst =
      [Node.abstraction] ∧
    ∀ e ∈ (runEngine cxOracleNoAbs (initState "fever case" "gpt-oss:20b" 10)).1,
      e.2.2.ranking = none ∧ e.2.2.deduction = none ∧ e.2.2.induction = none :=
  run_one_step_when_abstraction_absent cxOracleNoAbs "fever case" "gpt-oss:20b" 10 rfl

/-- C3 counterexample: in the concrete run driven by `cxOracleRun`, the
induction phase marks "Dengue fever" refuted, so the plausible subset is
`["Influenza A"]` alone; yet the second Ranking step (trace index 6)
ranks both "Influenza A" and "Dengue fever" — the node ranks the full
`induction` hypothesis set, not the plausible subset. -/
theorem rerank_plausible_subset_cx :
    ((runEngine cxOracleRun (initState "fever case" "gpt-oss:20b" 10)).1.map
        (fun e => (e.2.2.ranking.getD ⟨[]⟩).hypotheses.map RankedHyp.diagnosis))[6]? =
      some ["Influenza A", "Dengue fever"] ∧
    ((runEngine cxOracleRun (initState "fever case" "gpt-oss:20b" 10)).1.map
        (fun e => ( EpistState.induction_plausible e.2.2).map
          (fun hl => hl.hypotheses.map Hyp.diagnosis)))[6]? = some (some ["Influenza A"]) ∧
    "Dengue fever" ∉ (["Influenza A"] : List String) := by
  decide

/-- C3 (amended): on the second Ranking pass (induction present and
`reranked` false) the node ranks the ENTIRE `induction` hypothesis set —
not the plausible subset — re-wrapped as `{"hypotheses": ...}` with the
hypothesis dicts passed unchanged (the induction-specific fields are
retained, not discarded; only the answer's shape drops them), and sets
`reranked` to true. -/
theorem rerank_uses_all_induction_hypotheses (o : Oracle) (s : EpistState)
    (h1 : s.induction.isSome = true) (h2 : s.reranked.getD false = false) :
    (n_ranking o s).ranking = some ⟨List.insertionSort rankLe
        (List.insertionSort rankLe (o.rank (s.induction.getD ⟨[]⟩).hypotheses))⟩ ∧
    (n_ranking o s).reranked = some true := by
  unfold n_ranking
  simp [query_rank_hypotheses, h1, h2]

/-- Witness for the amended C3: the second-pass behaviour evaluated at
the concrete state `cxStateSecondPass`. -/
theorem rerank_uses_all_induction_witness :
    (n_ranking cxOracleRun cxStateSecondPass).ranking = some ⟨List.insertionSort rankLe
        (List.insertionSort rankLe (cxOracleRun.rank
          (cxStateSecondPass.induction.getD ⟨[]⟩).hypotheses))⟩ ∧
    (n_ranking cxOracleRun cxStateSecondPass).reranked = some true :=
  rerank_uses_all_induction_hypotheses cxOracleRun cxStateSecondPass rfl rfl

/-- C4 counterexample: entering the Ranking node at the concrete state
`cxStateReranked`, where `reranked` is already true, does not fail: the
node silently computes a fresh ranking from `abduction_focused`, writes
it, and resets `reranked` to false — everything the claim says never
happens. -/
theorem ranking_reentry_cx :
    (n_ranking cxOracleRun cxStateReranked).reranked = some false ∧
    (n_ranking cxOracleRun cxStateReranked).ranking =
      some ⟨[{ diagnosis := "Influenza A", position := { rank := 1 } },
             { diagnosis := "Dengue fever", position := { rank := 2 } }]⟩ := by
  decide

/-- C4 (amended): if the Ranking node is entered with `reranked` already
true (unreachable under the routers, but not guarded), it does NOT fail
fast: it takes the first-pass branch, ranks `abduction_focused` again,
overwrites `ranking`, and resets `reranked` to false. The node body is a
total function with no failure path. -/
theorem ranking_reentry_reranks_silently (o : Oracle) (s : EpistState)
    (h : s.reranked.getD false = true) :
    (n_ranking o s).reranked = some false ∧
    (n_ranking o s).ranking = some ⟨List.insertionSort rankLe (List.insertionSort rankLe
        (o.rank (s.abduction_focused.getD ⟨[]⟩).hypotheses))⟩ := by
  unfold n_ranking
  simp [query_rank_hypotheses, h]

/-- Witness for the amended C4 at the concrete state `cxStateReranked`. -/
theorem ranking_reentry_witness :
    (n_ranking cxOracleRun cxStateReranked).reranked = some false ∧
    (n_ranking cxOracleRun cxStateReranked).ranking =
      some ⟨List.insertionSort rankLe (List.insertionSort rankLe
        (cxOracleRun.rank (cxStateReranked.abduction_focused.getD ⟨[]⟩).hypotheses))⟩ :=
  ranking_reentry_reranks_silently cxOracleRun cxStateReranked rfl

/-- C5 counterexample: a schema-valid ranker answer (ten elements, each
diagnosis in the input enum) in which every rank is 1. The Ranking node
accepts it: the written ranking's ranks are NOT a contiguous permutation
of 1..N (N = 10, the number of hypotheses the executor returned) —
nothing in the code enforces rank uniqueness or contiguity. -/
theorem ranking_contiguous_ranks_cx :
    rankingSchemaValid (focused_diagnoses cxAbTen) (cxOracleFlat.rank cxAbTen.hypotheses) ∧
    (cxOracleFlat.rank cxAbTen.hypotheses).length = 10 ∧
    (n_ranking cxOracleFlat cxStateTen).ranking = some ⟨cxFlatAnswer⟩ ∧
    ¬ ((cxFlatAnswer.map (fun h => h.position.rank)).Perm
        ((List.range' 1 10).map (fun n => (n : Int)))) := by
  decide

/-- C5 (amended): after every Ranking step the written
`ranking.hypotheses` is sorted ascending by rank, and it is a permutation
of exactly the hypotheses the Phase Executor returned (none added or
dropped); the contiguous-1..N property of the ranks themselves is not
enforced anywhere in the code — it holds only if the executor's answer
already has it. -/
theorem ranking_sorted_and_perm_of_answer (o : Oracle) :
    (∀ s : EpistState, ∃ r : RankingOut, (n_ranking o s).ranking = some r ∧
        List.Sorted rankLe r.hypotheses) ∧
    (∀ ab : HypList, ((query_rank_hypotheses o ab).hypotheses).Perm (o.rank ab.hypotheses)) := by
  constructor
  · intro s
    unfold n_ranking
    split
    · exact ⟨_, rfl, List.sorted_insertionSort rankLe _⟩
    · exact ⟨_, rfl, List.sorted_insertionSort rankLe _⟩
  · intro ab
    exact List.perm_insertionSort rankLe _

/-- C6: in the focused-abduction phase, when the executor returns M
hypotheses with M > top_k, the phase output has exactly top_k hypotheses,
each of which appeared in the executor's original output (a selection
without replacement, no fabrication, not bound to be a prefix); when
M <= top_k the executor's answer is returned unchanged. The sampler
hypotheses are the contract of `random.sample` (uniform sampling without
replacement), behind which the run-to-run randomness is isolated. -/
theorem abduction_focused_downsampling (o : Oracle) (fs : List Finding) (unf : HypList)
    (k : Nat)
    (hlen : ∀ (l : List Hyp) (n : Nat), n ≤ l.length → (o.sample l n).length = n)
    (hsub : ∀ (l : List Hyp) (n : Nat), (o.sample l n).Subperm l) :
    ((o.abdFocused fs unf).hypotheses.length > k →
      (query_abduction_focused o fs unf k).hypotheses.length = k ∧
      (query_abduction_focused o fs unf k).hypotheses.Subperm
        (o.abdFocused fs unf).hypotheses ∧
      ∀ h ∈ (query_abduction_focused o fs unf k).hypotheses,
        h ∈ (o.abdFocused fs unf).hypotheses) ∧
    ((o.abdFocused fs unf).hypotheses.length ≤ k →
      query_abduction_focused o fs unf k = o.abdFocused fs unf) := by
  unfold query_abduction_focused
  constructor
  · intro hgt
    rw [if_pos hgt]
    exact ⟨hlen _ _ (le_of_lt hgt), hsub _ _, fun h hm => (hsub _ _).subset hm⟩
  · intro hle
    rw [if_neg (not_lt.mpr hle)]

/-- Witness for C6: the downsampling case evaluated on the concrete
backend `cxOracleFourteen` (14 hypotheses, top_k 10, prefix sampler). -/
theorem abduction_focused_downsampling_witness :
    (query_abduction_focused cxOracleFourteen [] ⟨[]⟩ 10).hypotheses.length = 10 ∧
    (query_abduction_focused cxOracleFourteen [] ⟨[]⟩ 10).hypotheses.Subperm
      (cxOracleFourteen.abdFocused [] ⟨[]⟩).hypotheses ∧
    ∀ h ∈ (query_abduction_focused cxOracleFourteen [] ⟨[]⟩ 10).hypotheses,
      h ∈ (cxOracleFourteen.abdFocused [] ⟨[]⟩).hypotheses :=
  (abduction_focused_downsampling cxOracleFourteen [] ⟨[]⟩ 10
    (fun l n hn => by show (List.take n l).length = n; simp; omega)
    (fun l n => List.Sublist.subperm (List.take_sublist n l))).1 (by decide)

/-- C7: in every run whose abstraction is present and whose deduction and
induction backends return schema-conforming answers (every diagnosis
drawn from the enum built over the respective input's diagnosis names),
the deduction step (trace index 4) and the induction step (trace index 5)
only mention diagnosis names already present in the ranking written by
the immediately preceding Ranking step (trace index 3): the phases
neither add nor invent diagnoses. -/
theorem no_invented_diagnoses (o : Oracle) (c m : String) (k : Nat) (fs : List Finding)
    (habs : o.abstr = some fs)
    (hded : ∀ (l : List RankedHyp), ∀ h ∈ o.ded l,
      h.diagnosis ∈ l.map RankedHyp.diagnosis)
    (hind : ∀ (l : List DedHyp), ∀ h ∈ o.ind l,
      h.diagnosis ∈ l.map DedHyp.diagnosis) :
    (stateAt o (initState c m k) 4).deduction.isSome = true ∧
    (stateAt o (initState c m k) 5).induction.isSome = true ∧
    (∀ h ∈ ((stateAt o (initState c m k) 4).deduction.getD ⟨[]⟩).hypotheses,
      h.diagnosis ∈
        ((stateAt o (initState c m k) 3).ranking.getD ⟨[]⟩).hypotheses.map
          RankedHyp.diagnosis) ∧
    (∀ h ∈ ((stateAt o (initState c m k) 5).induction.getD ⟨[]⟩).hypotheses,
      h.diagnosis ∈
        ((stateAt o (initState c m k) 3).ranking.getD ⟨[]⟩).hypotheses.map
          RankedHyp.diagnosis) := by
  obtain ⟨ab, au, af, rk, dd, ii, sp⟩ := o
  simp only at habs hded hind
  subst habs
  refine ⟨rfl, rfl, ?_, ?_⟩
  · intro h hm
    have h1 := hded _ h hm
    exact ((List.perm_insertionSort rankLe _).map RankedHyp.diagnosis).subset h1
  · intro h hm
    have h1 := hind _ h hm
    obtain ⟨x, hx, hxd⟩ := List.mem_map.mp h1
    have h2 := hded _ x hx
    rw [← hxd]
    exact ((List.perm_insertionSort rankLe _).map RankedHyp.diagnosis).subset h2

/-- Witness for C7: the no-invented-diagnoses property evaluated on the
concrete run driven by `cxOracleRun`, whose echoing deduction and
induction backends are schema-conforming. -/
theorem no_invented_diagnoses_witness :
    (stateAt cxOracleRun (initState "fever case" "gpt-oss:20b" 10) 4).deduction.isSome =
      true ∧
    (stateAt cxOracleRun (initState "fever case" "gpt-oss:20b" 10) 5).induction.isSome =
      true ∧
    (∀ h ∈ ((stateAt cxOracleRun (initState "fever case" "gpt-oss:20b" 10) 4).deduction.getD
        ⟨[]⟩).hypotheses,
      h.diagnosis ∈
        ((stateAt cxOracleRun (initState "fever case" "gpt-oss:20b" 10) 3).ranking.getD
          ⟨[]⟩).hypotheses.map RankedHyp.diagnosis) ∧
    (∀ h ∈ ((stateAt cxOracleRun (initState "fever case" "gpt-oss:20b" 10) 5).induction.getD
        ⟨[]⟩).hypotheses,
      h.diagnosis ∈
        ((stateAt cxOracleRun (initState "fever case" "gpt-oss:20b" 10) 3).ranking.getD
          ⟨[]⟩).hypotheses.map RankedHyp.diagnosis) :=
  no_invented_diagnoses cxOracleRun "fever case" "gpt-oss:20b" 10 _ rfl
    (fun l h hm => by
      obtain ⟨rh, hrh, he⟩ := List.mem_map.mp hm
      subst he
      exact List.mem_map_of_mem _ hrh)
    (fun l h hm => by
      obtain ⟨dh, hdh, he⟩ := List.mem_map.mp hm
      subst he
      exact List.mem_map_of_mem _ hdh)

/-- C8 counterexample: for the one-element input enum `["influenza"]`
(size 1, not 10), the 10-element answer repeating that single diagnosis
IS schema-valid — so it is false that no schema-valid output exists for
inputs of size other than 10; the schemas merely force exactly 10
elements, allowing repeated diagnoses. -/
theorem schema_small_input_valid_output_cx :
    rankingSchemaValid ["influenza"] cxRepeatAnswer ∧
    (["influenza"] : List String).length ≠ 10 := by
  decide

/-- C8 (amended): the dynamically constructed response schemas for
Ranking, Deduction and Induction each constrain the hypotheses list to
exactly 10 elements regardless of how many diagnoses are passed in. The
claimed consequence holds only in a restricted form: a schema-valid
output that ranks each input diagnosis exactly once (its diagnosis list
a permutation of the input names) forces the input to have exactly 10
names, and for an input enum with fewer than 10 names no schema-valid
output with pairwise-distinct diagnoses exists at all; but schema-valid
outputs that repeat enum values do exist for any non-empty input of any
size. -/
theorem schemas_fix_cardinality_ten (ds : List String) (rans : List RankedHyp)
    (dans : List DedHyp) (ians : List Hyp)
    (h1 : rankingSchemaValid ds rans) (h2 : dedSchemaValid ds dans)
    (h3 : indSchemaValid ds ians) :
    rans.length = 10 ∧ dans.length = 10 ∧ ians.length = 10 ∧
    ((rans.map RankedHyp.diagnosis).Nodup → 10 ≤ ds.length) ∧
    ((rans.map RankedHyp.diagnosis).Perm ds → ds.length = 10) := by
  refine ⟨h1.1, h2.1, h3.1, fun hnd => ?_, fun hperm => ?_⟩
  · have hsub : (rans.map RankedHyp.diagnosis) ⊆ ds := by
      intro d hd
      obtain ⟨h, hh, rfl⟩ := List.mem_map.mp hd
      exact h1.2 h hh
    have hle := (List.subperm_of_subset hnd hsub).length_le
    rw [List.length_map, h1.1] at hle
    exact hle
  · have hlen := hperm.length_eq
    rw [List.length_map, h1.1] at hlen
    exact hlen.symm

/-- Witness for the amended C8 at concrete schema-valid answers over the
ten-name enum `cxTenNames`. -/
theorem schemas_fix_cardinality_witness :
    cxTenRanked.length = 10 ∧ cxTenDed.length = 10 ∧ cxTenInd.length = 10 ∧
    ((cxTenRanked.map RankedHyp.diagnosis).Nodup → 10 ≤ cxTenNames.length) ∧
    ((cxTenRanked.map RankedHyp.diagnosis).Perm cxTenNames → cxTenNames.length = 10) :=
  schemas_fix_cardinality_ten cxTenNames cxTenRanked cxTenDed cxTenInd
    (by decide) (by decide) (by decide)

/-- C9 counterexample: in the concrete run driven by `cxOracleRun`, the
patch returned by the second step (the AbductionUnfocused node) writes
the `top_k` key again — so it is false that no node's patch ever writes
`case_text`/`model_id`/`top_k` after the initial write. -/
theorem topk_rewritten_by_node_cx :
    (runEngine cxOracleRun (initState "fever case" "gpt-oss:20b" 10)).1.map
        (fun e => e.2.1.top_k) = [none, some 10, none, none, none, none, none] ∧
    ¬ (∀ e ∈ (runEngine cxOracleRun (initState "fever case" "gpt-oss:20b" 10)).1,
        e.2.1.top_k = none) := by
  decide

/-- C9 (amended): the VALUES of `case_text`, `model` and `top_k` never
change during any run — every state in the trace carries the initial
values; no node patch ever writes `case_text` or `model`, and the only
node patch writing `top_k` is AbductionUnfocused, which rewrites the
value it just read from the state. -/
theorem immutable_inputs_preserved (o : Oracle) (c m : String) (k : Nat) :
    (∀ e ∈ (runEngine o (initState c m k)).1,
      e.2.2.case_text = c ∧ e.2.2.model = m ∧ e.2.2.top_k = k) ∧
    (∀ (n : Node) (s : EpistState),
      (execNode o n s).case_text = none ∧ (execNode o n s).model = none) ∧
    (∀ (n : Node) (s : EpistState), n ≠ Node.abduction_unfocused →
      (execNode o n s).top_k = none) ∧
    (∀ s : EpistState, (execNode o Node.abduction_unfocused s).top_k = some s.top_k) := by
  refine ⟨fun e he => runSteps_inputs_const o 60 Node.abstraction (initState c m k) e he,
    ?_, ?_, ?_⟩
  · intro n s
    cases n <;> simp only [execNode] <;>
      first
        | exact ⟨rfl, rfl⟩
        | (unfold n_ranking; split <;> exact ⟨rfl, rfl⟩)
  · intro n s hn
    cases n <;> simp only [execNode] <;>
      first
        | rfl
        | exact absurd rfl hn
        | (unfold n_ranking; split <;> rfl)
  · intro s; rfl

/-- Witness for the amended C9: the patch of the Ranking node omits
`top_k`, the patch of the AbductionUnfocused node rewrites the current
value, both at the concrete state `cxStateSecondPass`. -/
theorem immutable_inputs_witness :
    (execNode cxOracleRun Node.ranking cxStateSecondPass).top_k = none ∧
    (execNode cxOracleRun Node.abduction_unfocused cxStateSecondPass).top_k =
      some cxStateSecondPass.top_k :=
  ⟨(immutable_inputs_preserved cxOracleRun "fever case" "gpt-oss:20b" 10).2.2.1
      Node.ranking cxStateSecondPass (by decide),
   (immutable_inputs_preserved cxOracleRun "fever case" "gpt-oss:20b" 10).2.2.2
      cxStateSecondPass⟩

/-- C10 counterexample: a backend whose reply parses as JSON but does not
conform to the declared schema (the empty hypothesis list violates the
10-element ranking schema) is returned by `call_llm` as a plain success:
the function performs no schema validation of its own, refuting that it
"validates the backend's answer against the phase's declared schema and
fails exactly when no schema-conforming output arrives". -/
theorem call_llm_no_validation_cx :
    call_llm (fun _ => LlmAttempt.ok ([] : List RankedHyp)) =
      CallResult.success ([] : List RankedHyp) ∧
    ¬ rankingSchemaValid ["influenza"] [] := by
  exact ⟨rfl, by decide⟩

/-- C10 (amended): `call_llm` does not itself validate the parsed answer
against the response schema (the schema is only forwarded to the backend
as the `format` argument); a reply that parses is returned immediately
whatever it contains; only `JSONDecodeError` is retried, up to the
default budget of 10 attempts, after which the failure is the generic,
untyped `RuntimeError` (no `InvalidResponse` class exists in the code);
any other exception propagates to the caller at once and unwinds the
run. -/
theorem call_llm_retry_behavior {α : Type} (backend : Nat → LlmAttempt α) :
    (∀ v : α, backend 1 = LlmAttempt.ok v → call_llm backend = CallResult.success v) ∧
    ((∀ n, backend n = LlmAttempt.badJson) →
      call_llm backend = CallResult.runtimeFailure) ∧
    (backend 1 = LlmAttempt.exn → call_llm backend = CallResult.propagated) := by
  refine ⟨?_, ?_, ?_⟩
  · intro v hv
    show call_llm_loop backend 10 1 = CallResult.success v
    simp only [call_llm_loop, hv]
  · intro hb
    exact call_llm_loop_allBad backend hb 10 1
  · intro hv
    show call_llm_loop backend 10 1 = CallResult.propagated
    simp only [call_llm_loop, hv]

/-- Witness for the amended C10 at three concrete backends: an
immediately parsing one, a never-parsing one, and a throwing one. -/
theorem call_llm_retry_witness :
    call_llm (fun _ => LlmAttempt.ok (0 : Nat)) = CallResult.success 0 ∧
    call_llm (fun _ => (LlmAttempt.badJson : LlmAttempt Nat)) =
      CallResult.runtimeFailure ∧
    call_llm (fun _ => (LlmAttempt.exn : LlmAttempt Nat)) = CallResult.propagated :=
  ⟨(call_llm_retry_behavior _).1 0 rfl, (call_llm_retry_behavior _).2.1 (fun _ => rfl),
   (call_llm_retry_behavior _).2.2 rfl⟩

end Epist
